import Mathlib

/-!
Verification of the movies clustering & exploration application (`src/main.py`)
against its natural-language specification.

The Python program loads a movie catalog into a pandas dataframe, imputes
missing numeric values with column medians (line 40), clusters records with
K-Means (lines 47-48), and serves two query routes: `/api/search`
(`search_movie`, lines 61-171) and `/api/top100` (`top100_api`, lines 182-241).

This file gives a shallow embedding of the catalog and the two query routes:
  * records carry the eight CSV columns; optionally-missing numeric columns are
    `Option ℚ` (a `none` models a pandas NaN) and the optionally-missing text
    columns are `Option String`;
  * `pandas.DataFrame.sort_values(by=k, ascending=False)` is embedded by its
    actual implementation (`pandas.core.sorting.nargsort`): the non-missing
    rows are reversed, sorted ascending by a stable sort, reversed again, and
    the missing-key rows are appended (na_position defaults to "last").
    The underlying `numpy.argsort` is embedded as a stable ascending sort,
    which is exact for kind="stable" and for arrays within numpy's
    insertion-sort cutoff; the default kind="quicksort" leaves the order of
    equal keys unspecified, a caveat recorded where it matters;
  * `re.search` with the patterns the routes compile is embedded by a token
    matcher: `search_movie` builds `".*" + re.escape(q) + ".*"` (all-literal
    tokens, i.e. case-insensitive substring search), while `top100_api` passes
    the raw genre string to `Series.str.contains` (regex matching), which is
    embedded for patterns made of literal characters and the `.` wildcard.
-/

set_option maxRecDepth 100000

namespace Movies

/-! ## Data model

One `Record` per row of `movie_metadata.csv` (the columns the program reads).
`title_year` is kept as `Option ℚ` because pandas reads it as float64. -/

structure Record where
  movie_title : String
  duration : Option ℚ
  budget : Option ℚ
  imdb_score : Option ℚ
  title_year : Option ℚ
  gross : Option ℚ
  director_name : Option String
  genres : Option String
  deriving DecidableEq, Repr

/-- A dataframe row after startup: the (imputed) record, its positional pandas
index (the `id` used as disambiguation selector), and its K-Means label
(`df['cluster']`, line 48). -/
structure Row where
  idx : Nat
  rcd : Record
  cluster : Nat
  deriving DecidableEq, Repr

/-! ## Stable sorting, embedded from pandas `nargsort`

`DataFrame.sort_values(by=c, ascending=False)` computes a single-column
`nargsort`: NaN rows are split off, the remaining values are reversed, argsorted
ascending, the indexer is reversed back, and NaN positions are appended at the
end. `insAsc`/`sortAscBy` below are a stable ascending insertion sort standing
for the underlying ascending `argsort`. -/

def insAsc (key : α → ℚ) (x : α) : List α → List α
  | [] => [x]
  | y :: ys => if key y < key x then y :: insAsc key x ys else x :: y :: ys

def sortAscBy (key : α → ℚ) : List α → List α
  | [] => []
  | x :: xs => insAsc key x (sortAscBy key xs)

/-- `sort_values(by=key, ascending=False, na_position="last")` as implemented
by `pandas.core.sorting.nargsort` with a stable underlying argsort. -/
def sortValuesDesc (key : α → Option ℚ) (l : List α) : List α :=
  let nonNan := l.filter fun x => (key x).isSome
  let nanPart := l.filter fun x => !(key x).isSome
  (sortAscBy (fun x => (key x).getD 0) nonNan.reverse).reverse ++ nanPart

/-! ## Median imputation (line 40)

`df[numeric_features] = df[numeric_features].fillna(df[numeric_features].median())`
computes, per column, the median of the present values (pandas `median` skips
NaN; an even count averages the two middle values; an all-NaN column has median
NaN, which `fillna` does not use for filling). -/

def medianQ (xs : List ℚ) : Option ℚ :=
  let s := sortAscBy id xs
  let n := s.length
  if n = 0 then none
  else if n % 2 = 1 then s.get? (n / 2)
  else match s.get? (n / 2 - 1), s.get? (n / 2) with
    | some a, some b => some ((a + b) / 2)
    | _, _ => none

def colMedian (get : Record → Option ℚ) (c : List Record) : Option ℚ :=
  medianQ (c.filterMap get)

/-- `Series.fillna(v)`: a present value is kept; a missing one is replaced by
`v` when `v` is itself present (filling with NaN leaves NaN in place). -/
def fillNa (v : Option ℚ) (m : Option ℚ) : Option ℚ :=
  match v with
  | some q => some q
  | none => m

/-- The module-level imputation of line 40, applied to the whole catalog. -/
def impute (c : List Record) : List Record :=
  let md := colMedian (fun r => r.duration) c
  let mb := colMedian (fun r => r.budget) c
  let ms := colMedian (fun r => r.imdb_score) c
  let my := colMedian (fun r => r.title_year) c
  let mg := colMedian (fun r => r.gross) c
  c.map fun r =>
    { r with
      duration := fillNa r.duration md
      budget := fillNa r.budget mb
      imdb_score := fillNa r.imdb_score ms
      title_year := fillNa r.title_year my
      gross := fillNa r.gross mg }

/-- The dataframe served to the query routes: the imputed records, each with
its positional index and the cluster label produced at startup (line 48). -/
def startupFrame (c : List Record) (labels : List Nat) : List Row :=
  ((impute c).enum.zip labels).map fun p => ⟨p.1.1, p.1.2, p.2⟩

/-! ## Pattern matching over titles and genres

`search_movie` compiles `".*" + re.escape(movie_input) + ".*"` with
`re.IGNORECASE` and calls `pattern.search` on each stripped title (lines
111-112 and 119-120): after `re.escape` every character is a literal, so the
test is case-insensitive substring containment. `top100_api` calls
`Series.str.contains(genre, case=False, na=False)` (line 215), whose default
`regex=True` treats the genre string as a regular expression. Both are embedded
with one token matcher; a token is a literal character or the `.` wildcard
(which under the default non-DOTALL flags matches any character but a
newline). Patterns using other regex metacharacters are outside the embedding
(`parseToks` returns `none` for them). -/

inductive RTok where
  | lit (c : Char)
  | dot
  deriving DecidableEq, Repr

/-- One token of the pattern matches one character of the text; `case=False` /
`re.IGNORECASE` is embedded by comparing lowered characters. -/
def tokMatch : RTok → Char → Bool
  | .lit l, c => l.toLower == c.toLower
  | .dot, c => c != '\n'

/-- Does the token list match a prefix of the text? -/
def tokPfx : List RTok → List Char → Bool
  | [], _ => true
  | _ :: _, [] => false
  | t :: ts, c :: cs => tokMatch t c && tokPfx ts cs

/-- `re.search`: does the token list match anywhere in the text? -/
def tokSearch (p : List RTok) (s : List Char) : Bool :=
  match s with
  | [] => tokPfx p []
  | _ :: tl => tokPfx p s || tokSearch p tl

/-- The all-literal token list `re.escape` produces for a query string. -/
def litToks (s : String) : List RTok :=
  s.toList.map RTok.lit

/-- Python regex metacharacters (`re` special characters). -/
def regexSpecials : List Char :=
  ['.', '^', '$', '*', '+', '?', '\x7b', '\x7d', '[', ']', '\\', '|', '(', ')']

/-- Tokenize a pattern string: `.` becomes the wildcard, a character with no
regex meaning becomes a literal, any other metacharacter is outside the
embedded fragment of Python `re`. -/
def parseTok (c : Char) : Option RTok :=
  if c = '.' then some RTok.dot
  else if regexSpecials.contains c then none
  else some (RTok.lit c)

def parseToks (s : String) : Option (List RTok) :=
  s.toList.mapM parseTok

/-! ## Python `int()` parsing (line 107) -/

def digitsVal : List Char → Option Nat
  | [] => none
  | cs =>
    if cs.all Char.isDigit then
      some (cs.foldl (fun n c => 10 * n + c.toNat - '0'.toNat) 0)
    else none

/-- `int(s)` for a decimal string: surrounding whitespace is stripped, an
optional sign precedes the digits. (Python additionally accepts single
underscores between digits; no claim depends on that corner.) -/
def parseIntPy (s : String) : Option Int :=
  match s.trim.toList with
  | '+' :: rest => (digitsVal rest).map Int.ofNat
  | '-' :: rest => (digitsVal rest).map fun n => -(n : Int)
  | rest => (digitsVal rest).map Int.ofNat

/-! ## The `/api/search` route (`search_movie`, lines 61-171) -/

/-- The fixed qualifying threshold: `df['imdb_score'] >= 7.5` (line 145) — a
missing score (NaN) compares false. -/
def scoreQualifies : Option ℚ → Bool
  | some q => decide ((15 / 2 : ℚ) ≤ q)
  | none => false

/-- Exact-match predicate of line 117: stripped, lowered title equals the
stripped, lowered query (`q` is passed already stripped and lowered). -/
def exactPred (q : String) (r : Row) : Bool :=
  r.rcd.movie_title.trim.toLower == q

/-- Substring-candidate predicate of lines 111-112 / 119-120: the compiled
`".*" + re.escape(q) + ".*"` pattern is found in the stripped title. -/
def candPred (q : String) (r : Row) : Bool :=
  tokSearch (litToks q) r.rcd.movie_title.trim.toList

/-- `candidate_matches`: the rows whose stripped title contains the query. -/
def candRows (f : List Row) (q : String) : List Row :=
  f.filter (candPred q)

/-- Lines 143-146: rows of the selected record's cluster whose score meets the
threshold. -/
def similarRows (f : List Row) (cid : Nat) : List Row :=
  f.filter fun r => r.cluster == cid && scoreQualifies r.rcd.imdb_score

/-- Lines 149-152: the similar rows ordered by the requested criterion. -/
def similarSorted (f : List Row) (cid : Nat) (order : String) : List Row :=
  if order == "year" then
    sortValuesDesc (fun r => r.rcd.title_year) (similarRows f cid)
  else
    sortValuesDesc (fun r => r.rcd.imdb_score) (similarRows f cid)

/-- `int(row['title_year'])` truncates the float toward zero; a missing year
renders as the `"N/D"` sentinel (lines 159, 231). -/
inductive YearOut where
  | num (n : Int)
  | nd
  deriving DecidableEq, Repr

def ratTrunc (q : ℚ) : Int :=
  if 0 ≤ q then ⌊q⌋ else ⌈q⌉

def renderYearInt : Option ℚ → YearOut
  | some q => YearOut.num (ratTrunc q)
  | none => YearOut.nd

/-- The candidate list (line 129) forwards `row['title_year']` without the
`int(...)` conversion; the missing case is the same `"N/D"` sentinel. -/
inductive YearRaw where
  | num (q : ℚ)
  | nd
  deriving DecidableEq, Repr

def renderYearRaw : Option ℚ → YearRaw
  | some q => YearRaw.num q
  | none => YearRaw.nd

/-- `row[c] if pd.notnull(row[c]) else "N/D"` for the text columns. -/
def renderStr : Option String → String
  | some s => s
  | none => "N/D"

/-- One element of `similar_movies` (lines 157-163) and of `movies`
(lines 229-235): both routes emit the same five fields. -/
structure SimilarItem where
  movie_title : String
  title_year : YearOut
  director_name : String
  genres : String
  imdb_score : Option ℚ
  deriving DecidableEq, Repr

def renderItem (r : Row) : SimilarItem :=
  { movie_title := r.rcd.movie_title
    title_year := renderYearInt r.rcd.title_year
    director_name := renderStr r.rcd.director_name
    genres := renderStr r.rcd.genres
    imdb_score := r.rcd.imdb_score }

/-- One entry of the disambiguation `candidates` list (lines 126-130). -/
structure CandJson where
  id : Nat
  movie_title : String
  title_year : YearRaw
  deriving DecidableEq, Repr

/-- The success payload of lines 165-170. -/
structure SimilarResp where
  selected_movie : String
  cluster : Nat
  order : String
  similar_movies : List SimilarItem
  deriving DecidableEq, Repr

/-- The three structured outcomes of `search_movie`. The 400-response error
kinds stand for the four `{"error": ...}` messages: `movieRequired` for line
101, `selectionNotInt` for line 109, `invalidSelection` for line 114 and
`notFound` for line 122. -/
inductive ErrKind where
  | movieRequired
  | selectionNotInt
  | invalidSelection
  | notFound
  deriving DecidableEq, Repr

inductive SearchOut where
  | err (kind : ErrKind)
  | cands (candidates : List CandJson)
  | similar (resp : SimilarResp)
  deriving DecidableEq, Repr

/-- Lines 139-171: the selected row's cluster id is read, the qualifying
cluster peers are ordered and rendered. -/
def similarResp (f : List Row) (rsel : Row) (order : String) : SearchOut :=
  SearchOut.similar
    { selected_movie := rsel.rcd.movie_title
      cluster := rsel.cluster
      order := order
      similar_movies := (similarSorted f rsel.cluster order).map renderItem }

/-- `search_movie` (lines 96-171). `movieRaw` is the `movie` query parameter
(default `""`), `sel` the optional `selection` parameter as given on the query
string, `orderRaw` the `order` parameter (default `"imdb"`). -/
def search (f : List Row) (movieRaw : String) (sel : Option String)
    (orderRaw : String) : SearchOut :=
  let movie := movieRaw.trim
  let order := orderRaw.toLower
  if movie == "" then SearchOut.err ErrKind.movieRequired
  else
    match sel with
    | some s =>
      match parseIntPy s with
      | none => SearchOut.err ErrKind.selectionNotInt
      | some n =>
        match (candRows f movie).find? (fun r => (r.idx : Int) == n) with
        | none => SearchOut.err ErrKind.invalidSelection
        | some rsel => similarResp f rsel order
    | none =>
      match f.filter (exactPred movie.toLower) with
      | rsel :: _ => similarResp f rsel order
      | [] =>
        match candRows f movie with
        | [] => SearchOut.err ErrKind.notFound
        | c :: cs =>
          SearchOut.cands ((c :: cs).map fun r =>
            ⟨r.idx, r.rcd.movie_title, renderYearRaw r.rcd.title_year⟩)

/-! ## The `/api/top100` route (`top100_api`, lines 182-241) -/

structure Top100Resp where
  order : String
  genre : String
  movies : List SimilarItem
  deriving DecidableEq, Repr

/-- Lines 213-215: the genre filter.
`Series.str.contains(genre, case=False, na=False)` treats the stripped genre
parameter as a regex pattern and maps missing genre cells to `False`; the
result is `none` when the pattern uses regex constructs outside the embedded
fragment. An empty genre applies no filter (the `if genre:` truthiness test). -/
def genreFilter (f : List Row) (genre : String) : Option (List Row) :=
  if genre == "" then some f
  else
    (parseToks genre).map fun toks =>
      f.filter fun r =>
        match r.rcd.genres with
        | none => false
        | some g => tokSearch toks g.toList

/-- Line 218: rank by `imdb_score` descending, truncate to the first 100. -/
def scoreTop (rows : List Row) : List Row :=
  (sortValuesDesc (fun r => r.rcd.imdb_score) rows).take 100

/-- `top100_api` (lines 209-241). -/
def top100 (f : List Row) (genreRaw orderRaw : String) : Option Top100Resp :=
  let genre := genreRaw.trim
  let order := orderRaw.toLower
  (genreFilter f genre).map fun filtered =>
    let top := scoreTop filtered
    let fin :=
      if order == "year" then sortValuesDesc (fun r => r.rcd.title_year) top
      else sortValuesDesc (fun r => r.rcd.imdb_score) top
    { order := order, genre := genre, movies := fin.map renderItem }

/-! ## Case-insensitive substring containment, in the spec's words

Section 4.3 step 4 and section 4.4 of the spec speak of "contains ... as a
case-insensitive substring". `lowSub p s` decides exactly that (a contiguous
occurrence of `p` in `s` up to `Char.toLower`), and is proved below to
characterize the all-literal regex search the code performs. -/

def lowEq (a b : Char) : Bool :=
  a.toLower == b.toLower

def lowPfx : List Char → List Char → Bool
  | [], _ => true
  | _ :: _, [] => false
  | a :: as, b :: bs => lowEq a b && lowPfx as bs

def lowSub (p s : List Char) : Bool :=
  match s with
  | [] => lowPfx p []
  | _ :: tl => lowPfx p s || lowSub p tl

theorem lowPfx_iff (p : List Char) : ∀ s : List Char,
    lowPfx p s = true ↔
      ∃ post, s.map Char.toLower = p.map Char.toLower ++ post := by
  induction p with
  | nil =>
    intro s
    simp [lowPfx]
  | cons a as ih =>
    intro s
    cases s with
    | nil => simp [lowPfx]
    | cons b bs =>
      simp only [lowPfx, List.map_cons, Bool.and_eq_true, ih bs, lowEq,
        beq_iff_eq]
      constructor
      · rintro ⟨hab, post, hpost⟩
        exact ⟨post, by simp [hab, hpost]⟩
      · rintro ⟨post, hpost⟩
        simp only [List.cons_append, List.cons.injEq] at hpost
        exact ⟨hpost.1.symm, post, hpost.2⟩

theorem lowSub_iff (p : List Char) : ∀ s : List Char,
    lowSub p s = true ↔
      ∃ pre post, s.map Char.toLower = pre ++ p.map Char.toLower ++ post := by
  intro s
  induction s with
  | nil =>
    simp only [lowSub, lowPfx_iff, List.map_nil]
    constructor
    · rintro ⟨post, h⟩
      exact ⟨[], post, by simpa using h⟩
    · rintro ⟨pre, post, h⟩
      cases pre with
      | nil => exact ⟨post, by simpa using h⟩
      | cons x xs => simp at h
  | cons b bs ih =>
    simp only [lowSub, Bool.or_eq_true, lowPfx_iff, ih]
    constructor
    · rintro (⟨post, h⟩ | ⟨pre, post, h⟩)
      · exact ⟨[], post, by simpa using h⟩
      · exact ⟨b.toLower :: pre, post, by simp [h]⟩
    · rintro ⟨pre, post, h⟩
      cases pre with
      | nil => exact Or.inl ⟨post, by simpa using h⟩
      | cons x xs =>
        simp only [List.map_cons, List.cons_append, List.cons.injEq] at h
        exact Or.inr ⟨xs, post, h.2⟩

/-- The all-literal pattern `re.escape` produces performs exactly the
case-insensitive prefix test. -/
theorem tokPfx_litToks (w : List Char) : ∀ t : List Char,
    tokPfx (w.map RTok.lit) t = lowPfx w t := by
  induction w with
  | nil => intro t; rfl
  | cons a as ih =>
    intro t
    cases t with
    | nil => rfl
    | cons b bs => simp [tokPfx, lowPfx, tokMatch, lowEq, ih bs]

/-- Searching with the escaped (all-literal) pattern is the case-insensitive
substring test. -/
theorem tokSearch_litToks (w : List Char) : ∀ s : List Char,
    tokSearch (w.map RTok.lit) s = lowSub w s := by
  intro s
  induction s with
  | nil => simp [tokSearch, lowSub, tokPfx_litToks]
  | cons b bs ih => simp [tokSearch, lowSub, tokPfx_litToks, ih]

/-! ## Permutation and sortedness facts about the embedded `sort_values` -/

theorem insAsc_perm (key : α → ℚ) (x : α) (l : List α) :
    List.Perm (insAsc key x l) (x :: l) := by
  induction l with
  | nil => exact List.Perm.refl _
  | cons y ys ih =>
    by_cases h : key y < key x
    · simpa [insAsc, h] using (ih.cons y).trans (List.Perm.swap x y ys)
    · simp [insAsc, h]

theorem sortAscBy_perm (key : α → ℚ) (l : List α) :
    List.Perm (sortAscBy key l) l := by
  induction l with
  | nil => exact List.Perm.refl _
  | cons x xs ih => exact (insAsc_perm key x (sortAscBy key xs)).trans (ih.cons x)

theorem sortValuesDesc_perm (key : α → Option ℚ) (l : List α) :
    List.Perm (sortValuesDesc key l) l := by
  unfold sortValuesDesc
  refine List.Perm.trans (List.Perm.append ?_ (List.Perm.refl _))
    (List.filter_append_perm _ l)
  calc
    List.Perm ((sortAscBy _ (List.reverse _)).reverse) (sortAscBy _ (List.reverse _)) :=
      List.reverse_perm _
    List.Perm _ ((l.filter fun x => (key x).isSome).reverse) := sortAscBy_perm _ _
    List.Perm _ (l.filter fun x => (key x).isSome) := List.reverse_perm _

theorem mem_sortValuesDesc {key : α → Option ℚ} {l : List α} {a : α} :
    a ∈ sortValuesDesc key l ↔ a ∈ l :=
  (sortValuesDesc_perm key l).mem_iff

theorem pairwise_all {l : List α} {R : α → α → Prop}
    (h : ∀ a ∈ l, ∀ b ∈ l, R a b) : l.Pairwise R := by
  induction l with
  | nil => exact List.Pairwise.nil
  | cons x xs ih =>
    exact List.Pairwise.cons (fun b hb => h x (by simp) b (by simp [hb]))
      (ih fun a ha b hb => h a (by simp [ha]) b (by simp [hb]))

theorem insAsc_pairwise (key : α → ℚ) (x : α) {l : List α}
    (h : l.Pairwise fun a b => key a ≤ key b) :
    (insAsc key x l).Pairwise fun a b => key a ≤ key b := by
  induction l with
  | nil => simp [insAsc]
  | cons y ys ih =>
    rw [List.pairwise_cons] at h
    obtain ⟨hy, hys⟩ := h
    by_cases hlt : key y < key x
    · simp only [insAsc, if_pos hlt]
      rw [List.pairwise_cons]
      refine ⟨fun b hb => ?_, ih hys⟩
      rcases List.mem_cons.mp ((insAsc_perm key x ys).mem_iff.mp hb) with rfl | hbys
      · exact le_of_lt hlt
      · exact hy b hbys
    · simp only [insAsc, if_neg hlt]
      push_neg at hlt
      rw [List.pairwise_cons]
      refine ⟨fun b hb => ?_, List.pairwise_cons.mpr ⟨hy, hys⟩⟩
      rcases List.mem_cons.mp hb with rfl | hbys
      · exact hlt
      · exact le_trans hlt (hy b hbys)

theorem sortAscBy_pairwise (key : α → ℚ) (l : List α) :
    (sortAscBy key l).Pairwise fun a b => key a ≤ key b := by
  induction l with
  | nil => exact List.Pairwise.nil
  | cons x xs ih => exact insAsc_pairwise key x ih

/-- Descending order on the optional sort keys, missing (NaN) keys at the
bottom: the order `sort_values(ascending=False, na_position="last")` leaves
its output in. -/
def optGeP : Option ℚ → Option ℚ → Prop
  | _, none => True
  | some a, some b => b ≤ a
  | none, some _ => False

theorem optGeP_none (x : Option ℚ) : optGeP x none := by
  cases x <;> simp [optGeP]

/-- The embedded descending sort leaves any list pairwise-descending on its
key, missing keys last. -/
theorem sortValuesDesc_pairwise (key : α → Option ℚ) (l : List α) :
    (sortValuesDesc key l).Pairwise fun a b => optGeP (key a) (key b) := by
  unfold sortValuesDesc
  rw [List.pairwise_append]
  refine ⟨?_, ?_, ?_⟩
  · rw [List.pairwise_reverse]
    have hs := sortAscBy_pairwise (fun x => (key x).getD 0)
      ((l.filter fun x => (key x).isSome).reverse)
    have hmem : ∀ a ∈ sortAscBy (fun x => (key x).getD 0)
        ((l.filter fun x => (key x).isSome).reverse), (key a).isSome := by
      intro a ha
      have := (sortAscBy_perm _ _).mem_iff.mp ha
      rw [List.mem_reverse] at this
      simpa using (List.mem_filter.mp this).2
    refine List.Pairwise.imp_of_mem ?_ hs
    intro a b ha hb hab
    have hka := hmem a ha
    have hkb := hmem b hb
    cases hya : key a with
    | none => rw [hya] at hka; simp at hka
    | some qa =>
      cases hyb : key b with
      | none => rw [hyb] at hkb; simp at hkb
      | some qb =>
        rw [hya, hyb] at hab
        simpa [optGeP] using hab
  · refine pairwise_all fun a ha b hb => ?_
    have : (key b).isSome = false := by
      simpa using (List.mem_filter.mp hb).2
    cases hk : key b with
    | none => exact optGeP_none _
    | some q => rw [hk] at this; simp at this
  · intro a _ b hb
    have : (key b).isSome = false := by
      simpa using (List.mem_filter.mp hb).2
    cases hk : key b with
    | none => exact optGeP_none _
    | some q => rw [hk] at this; simp at this

/-! ## Inversion of `search`: a similar-movies response always comes from a
resolved row of the frame -/

theorem search_similar_inv {f : List Row} {m : String} {sel : Option String}
    {o : String} {resp : SimilarResp}
    (h : search f m sel o = SearchOut.similar resp) :
    ∃ rsel, rsel ∈ f ∧
      resp = { selected_movie := rsel.rcd.movie_title
               cluster := rsel.cluster
               order := o.toLower
               similar_movies :=
                 (similarSorted f rsel.cluster o.toLower).map renderItem } := by
  by_cases hm : (m.trim == "") = true
  · simp [search, hm] at h
  · rw [Bool.not_eq_true] at hm
    cases sel with
    | some s =>
      cases hp : parseIntPy s with
      | none => simp [search, hm, hp] at h
      | some n =>
        cases hf : (candRows f m.trim).find? (fun r => (r.idx : Int) == n) with
        | none => simp [search, hm, hp, hf] at h
        | some rsel =>
          simp only [search, hm, hp, hf, Bool.false_eq_true, if_false,
            similarResp, SearchOut.similar.injEq] at h
          exact ⟨rsel,
            (List.mem_filter.mp (List.mem_of_find?_eq_some hf)).1, h.symm⟩
    | none =>
      cases hfil : f.filter (exactPred m.trim.toLower) with
      | cons rsel rest =>
        simp only [search, hm, hfil, Bool.false_eq_true, if_false,
          similarResp, SearchOut.similar.injEq] at h
        have hmem : rsel ∈ f.filter (exactPred m.trim.toLower) := by
          rw [hfil]; exact List.mem_cons_self _ _
        exact ⟨rsel, (List.mem_filter.mp hmem).1, h.symm⟩
      | nil =>
        cases hc : candRows f m.trim with
        | nil => simp [search, hm, hfil, hc] at h
        | cons c cs => simp [search, hm, hfil, hc] at h

theorem scoreQualifies_iff {v : Option ℚ} :
    scoreQualifies v = true ↔ ∃ q, v = some q ∧ (15 / 2 : ℚ) ≤ q := by
  cases v <;> simp [scoreQualifies]

theorem mem_similarSorted {f : List Row} {cid : Nat} {ord : String} {r : Row} :
    r ∈ similarSorted f cid ord ↔
      r ∈ f ∧ r.cluster = cid ∧ scoreQualifies r.rcd.imdb_score = true := by
  unfold similarSorted
  split <;>
    rw [mem_sortValuesDesc] <;>
    simp [similarRows, List.mem_filter, and_assoc]

/-- C2: for every resolved record, the similar_movies set returned by search is
exactly the catalog records in the resolved record's cluster with imdb_score
at least 7.5; no returned item has a score below 7.5 and the resolved record
itself is rendered into the result whenever its own score qualifies. -/
theorem claim_C2_similar_set {f : List Row} {m : String} {sel : Option String}
    {o : String} {resp : SimilarResp}
    (h : search f m sel o = SearchOut.similar resp) :
    (∀ it ∈ resp.similar_movies,
        ∃ r, r ∈ f ∧ renderItem r = it ∧ r.cluster = resp.cluster ∧
          ∃ q, r.rcd.imdb_score = some q ∧ (15 / 2 : ℚ) ≤ q) ∧
    (∀ r, r ∈ f → r.cluster = resp.cluster →
        scoreQualifies r.rcd.imdb_score = true →
        renderItem r ∈ resp.similar_movies) ∧
    (∀ it ∈ resp.similar_movies, ∃ q, it.imdb_score = some q ∧ (15 / 2 : ℚ) ≤ q) ∧
    (∃ rsel, rsel ∈ f ∧ resp.selected_movie = rsel.rcd.movie_title ∧
        resp.cluster = rsel.cluster ∧
        (scoreQualifies rsel.rcd.imdb_score = true →
          renderItem rsel ∈ resp.similar_movies)) := by
  obtain ⟨rsel, hmem, rfl⟩ := search_similar_inv h
  refine ⟨?_, ?_, ?_, ?_⟩
  · intro it hit
    obtain ⟨r, hr, hrit⟩ := List.mem_map.mp hit
    obtain ⟨hrf, hrc, hrq⟩ := mem_similarSorted.mp hr
    exact ⟨r, hrf, hrit, hrc, scoreQualifies_iff.mp hrq⟩
  · intro r hrf hrc hrq
    exact List.mem_map.mpr ⟨r, mem_similarSorted.mpr ⟨hrf, hrc, hrq⟩, rfl⟩
  · intro it hit
    obtain ⟨r, hr, hrit⟩ := List.mem_map.mp hit
    obtain ⟨hrf, hrc, hrq⟩ := mem_similarSorted.mp hr
    obtain ⟨q, hq, hq75⟩ := scoreQualifies_iff.mp hrq
    exact ⟨q, by rw [← hrit, renderItem]; exact hq, hq75⟩
  · exact ⟨rsel, hmem, rfl, rfl, fun hq =>
      List.mem_map.mpr ⟨rsel, mem_similarSorted.mpr ⟨hmem, rfl, hq⟩, rfl⟩⟩

/-- Descending order on rendered (truncated) years, `"N/D"` at the bottom. -/
def yearOutGe : YearOut → YearOut → Prop
  | _, .nd => True
  | .num a, .num b => b ≤ a
  | .nd, .num _ => False

theorem ratTrunc_mono {a b : ℚ} (h : a ≤ b) : ratTrunc a ≤ ratTrunc b := by
  unfold ratTrunc
  by_cases ha : (0 : ℚ) ≤ a
  · rw [if_pos ha, if_pos (le_trans ha h)]
    exact Int.floor_mono h
  · rw [if_neg ha]
    by_cases hb : (0 : ℚ) ≤ b
    · rw [if_pos hb]
      have h1 : ⌈a⌉ ≤ (0 : ℤ) := Int.ceil_le.mpr (by exact_mod_cast le_of_not_le ha)
      have h2 : (0 : ℤ) ≤ ⌊b⌋ := Int.le_floor.mpr (by exact_mod_cast hb)
      exact le_trans h1 h2
    · rw [if_neg hb]
      exact Int.ceil_mono h

theorem renderYearInt_ge {x y : Option ℚ} (h : optGeP x y) :
    yearOutGe (renderYearInt x) (renderYearInt y) := by
  cases y with
  | none => cases x <;> simp [renderYearInt, yearOutGe]
  | some qy =>
    cases x with
    | none => simp [optGeP] at h
    | some qx =>
      simp only [optGeP] at h
      simpa [renderYearInt, yearOutGe] using ratTrunc_mono h

/-- C3: the similar_movies list returned by search is sorted descending by
title_year when the requested order is "year", and descending by imdb_score
for every other order value. -/
theorem claim_C3_similar_order {f : List Row} {m : String} {sel : Option String}
    {o : String} {resp : SimilarResp}
    (h : search f m sel o = SearchOut.similar resp) :
    (resp.order = "year" →
      resp.similar_movies.Pairwise fun a b => yearOutGe a.title_year b.title_year) ∧
    (resp.order ≠ "year" →
      resp.similar_movies.Pairwise fun a b => optGeP a.imdb_score b.imdb_score) := by
  obtain ⟨rsel, hmem, rfl⟩ := search_similar_inv h
  constructor
  · intro hord
    have hyr : (o.toLower == "year") = true := by
      simp only at hord
      rw [hord]
      exact beq_self_eq_true _
    simp only [similarSorted, hyr, if_true]
    refine List.Pairwise.map renderItem ?_
      (sortValuesDesc_pairwise (fun r => r.rcd.title_year) (similarRows f rsel.cluster))
    intro a b hab
    exact renderYearInt_ge hab
  · intro hord
    have hyr : (o.toLower == "year") = false := by
      simp only at hord
      exact beq_eq_false_iff_ne.mpr hord
    simp only [similarSorted, hyr, Bool.false_eq_true, if_false]
    refine List.Pairwise.map renderItem ?_
      (sortValuesDesc_pairwise (fun r => r.rcd.imdb_score) (similarRows f rsel.cluster))
    intro a b hab
    exact hab

theorem filter_eq_cons_of_find? {l : List α} {p : α → Bool} {r : α}
    (h : l.find? p = some r) : ∃ t, l.filter p = r :: t := by
  induction l with
  | nil => cases h
  | cons x xs ih =>
    by_cases hx : p x
    · rw [List.find?_cons_of_pos _ hx] at h
      cases h
      exact ⟨xs.filter p, by simp [List.filter_cons, hx]⟩
    · rw [List.find?_cons_of_neg _ hx] at h
      obtain ⟨t, ht⟩ := ih h
      exact ⟨t, by simp [List.filter_cons, hx, ht]⟩

/-- C4: with a non-empty query and no selection parameter, if some record's
trimmed title equals the trimmed query case-insensitively, search resolves to
the first such record in catalog order and returns a similar-movies response,
never a disambiguation candidate list. -/
theorem claim_C4_exact_match_resolves {f : List Row} {m o : String} {r0 : Row}
    (hne : m.trim ≠ "")
    (hfind : f.find? (exactPred m.trim.toLower) = some r0) :
    ∃ resp, search f m none o = SearchOut.similar resp ∧
      resp.selected_movie = r0.rcd.movie_title ∧ resp.cluster = r0.cluster := by
  have hm : (m.trim == "") = false := beq_eq_false_iff_ne.mpr hne
  obtain ⟨t, ht⟩ := filter_eq_cons_of_find? hfind
  refine ⟨{ selected_movie := r0.rcd.movie_title
            cluster := r0.cluster
            order := o.toLower
            similar_movies :=
              (similarSorted f r0.cluster o.toLower).map renderItem },
    ?_, rfl, rfl⟩
  simp [search, hm, ht, similarResp]

def isErr : SearchOut → Bool
  | .err _ => true
  | _ => false

/-- C5: search returns a structured error response iff the trimmed movie
parameter is empty, or a present selection fails integer parsing, or a parsed
selection is absent from the recomputed substring candidate set (also when
that set is empty), or no selection is given, no exact match exists and the
substring candidate set is empty. A present selection found in the candidate
set yields the single record at that identity, and a non-empty candidate set
without a selection yields the disambiguation response, a success outcome. -/
theorem claim_C5_error_iff (f : List Row) (m : String) (sel : Option String)
    (o : String) :
    (isErr (search f m sel o) = true ↔
      m.trim = "" ∨
      (∃ s, sel = some s ∧ parseIntPy s = none) ∨
      (∃ s n, sel = some s ∧ parseIntPy s = some n ∧
        ∀ r ∈ candRows f m.trim, (r.idx : Int) ≠ n) ∨
      (sel = none ∧ f.filter (exactPred m.trim.toLower) = [] ∧
        candRows f m.trim = [])) ∧
    (m.trim ≠ "" → sel = none → f.filter (exactPred m.trim.toLower) = [] →
      candRows f m.trim ≠ [] →
      ∃ cs, search f m none o = SearchOut.cands cs ∧ cs ≠ []) ∧
    (∀ s n rsel, sel = some s → parseIntPy s = some n → m.trim ≠ "" →
      (candRows f m.trim).find? (fun r => (r.idx : Int) == n) = some rsel →
      ∃ resp, search f m sel o = SearchOut.similar resp ∧
        resp.selected_movie = rsel.rcd.movie_title) := by
  refine ⟨?_, ?_, ?_⟩
  · by_cases hm : m.trim = ""
    · have hm' : (m.trim == "") = true := by rw [hm]; exact beq_self_eq_true _
      have hs : search f m sel o = SearchOut.err ErrKind.movieRequired := by
        simp [search, hm']
      rw [hs]
      exact iff_of_true rfl (Or.inl hm)
    · have hm' : (m.trim == "") = false := beq_eq_false_iff_ne.mpr hm
      cases sel with
      | some s =>
        cases hp : parseIntPy s with
        | none =>
          have hs : search f m (some s) o = SearchOut.err ErrKind.selectionNotInt := by
            simp [search, hm', hp]
          rw [hs]
          exact iff_of_true rfl (Or.inr (Or.inl ⟨s, rfl, hp⟩))
        | some n =>
          cases hf : (candRows f m.trim).find? (fun r => (r.idx : Int) == n) with
          | none =>
            have hs : search f m (some s) o = SearchOut.err ErrKind.invalidSelection := by
              simp [search, hm', hp, hf]
            rw [hs]
            refine iff_of_true rfl (Or.inr (Or.inr (Or.inl ⟨s, n, rfl, hp, ?_⟩)))
            intro r hr heq
            exact absurd (by rw [heq]; exact beq_self_eq_true _)
              (List.find?_eq_none.mp hf r hr)
          | some rsel =>
            have hs : search f m (some s) o = similarResp f rsel o.toLower := by
              simp [search, hm', hp, hf]
            rw [hs]
            refine iff_of_false (by simp [similarResp, isErr]) ?_
            rintro (h1 | ⟨s', hs', hp'⟩ | ⟨s', n', hs', hp', hall⟩ | ⟨hnone, -, -⟩)
            · exact hm h1
            · injection hs' with h; subst h
              rw [hp] at hp'
              exact Option.noConfusion hp'
            · injection hs' with h; subst h
              rw [hp] at hp'
              injection hp' with h2
              subst h2
              have hpred := List.find?_some hf
              exact hall rsel (List.mem_of_find?_eq_some hf) (eq_of_beq hpred)
            · exact Option.noConfusion hnone
      | none =>
        cases hfil : f.filter (exactPred m.trim.toLower) with
        | cons r rest =>
          have hs : search f m none o = similarResp f r o.toLower := by
            simp [search, hm', hfil]
          rw [hs]
          refine iff_of_false (by simp [similarResp, isErr]) ?_
          rintro (h1 | ⟨s', hs', -⟩ | ⟨s', n', hs', -, -⟩ | ⟨-, hfil', -⟩)
          · exact hm h1
          · exact Option.noConfusion hs'
          · exact Option.noConfusion hs'
          · exact List.noConfusion hfil'
        | nil =>
          cases hc : candRows f m.trim with
          | nil =>
            have hs : search f m none o = SearchOut.err ErrKind.notFound := by
              simp [search, hm', hfil, hc]
            rw [hs]
            exact iff_of_true rfl (Or.inr (Or.inr (Or.inr ⟨rfl, rfl, rfl⟩)))
          | cons c cs =>
            have hs : search f m none o = SearchOut.cands ((c :: cs).map fun r =>
                ⟨r.idx, r.rcd.movie_title, renderYearRaw r.rcd.title_year⟩) := by
              simp [search, hm', hfil, hc]
            rw [hs]
            refine iff_of_false (by simp [isErr]) ?_
            rintro (h1 | ⟨s', hs', -⟩ | ⟨s', n', hs', -, -⟩ | ⟨-, -, hc'⟩)
            · exact hm h1
            · exact Option.noConfusion hs'
            · exact Option.noConfusion hs'
            · exact List.noConfusion hc'
  · intro hm0 hsel hfil hc
    subst hsel
    have hm' : (m.trim == "") = false := beq_eq_false_iff_ne.mpr hm0
    cases hc2 : candRows f m.trim with
    | nil => exact absurd hc2 hc
    | cons c cs =>
      refine ⟨(c :: cs).map fun r =>
        ⟨r.idx, r.rcd.movie_title, renderYearRaw r.rcd.title_year⟩, ?_, by simp⟩
      simp [search, hm', hfil, hc2]
  · intro s n rsel hsel hp hm0 hf
    subst hsel
    have hm' : (m.trim == "") = false := beq_eq_false_iff_ne.mpr hm0
    refine ⟨{ selected_movie := rsel.rcd.movie_title
              cluster := rsel.cluster
              order := o.toLower
              similar_movies :=
                (similarSorted f rsel.cluster o.toLower).map renderItem },
      ?_, rfl⟩
    simp [search, hm', hp, hf, similarResp]

/-- C1: top100 first ranks the genre-filtered records by imdb_score descending
and truncates to the first 100; the optional year ordering is applied only to
that truncated set, so an item can appear in the response iff it is rendered
from the score-based top 100 — regardless of the requested order. -/
theorem claim_C1_top100_two_phase {f : List Row} {g o : String}
    {resp : Top100Resp} {filtered : List Row}
    (h : top100 f g o = some resp)
    (hfil : genreFilter f g.trim = some filtered) :
    (∀ it, it ∈ resp.movies ↔ it ∈ (scoreTop filtered).map renderItem) ∧
    (o.toLower = "year" →
      resp.movies =
        (sortValuesDesc (fun r => r.rcd.title_year) (scoreTop filtered)).map
          renderItem) := by
  rw [top100, hfil, Option.map_some'] at h
  injection h with h
  subst h
  constructor
  · intro it
    have hperm : List.Perm
        ((if (o.toLower == "year") = true
          then sortValuesDesc (fun r => r.rcd.title_year) (scoreTop filtered)
          else sortValuesDesc (fun r => r.rcd.imdb_score) (scoreTop filtered)).map
            renderItem)
        ((scoreTop filtered).map renderItem) := by
      split
      · exact (sortValuesDesc_perm _ _).map _
      · exact (sortValuesDesc_perm _ _).map _
    exact hperm.mem_iff
  · intro hord
    have hyr : (o.toLower == "year") = true := by
      rw [hord]; exact beq_self_eq_true _
    simp [hyr]

theorem mapM_parseTok_all_lit (l : List Char) (h : ∀ c ∈ l, c ∉ regexSpecials) :
    l.mapM parseTok = some (l.map RTok.lit) := by
  induction l with
  | nil => rfl
  | cons c cs ih =>
    have hc : c ∉ regexSpecials := h c (List.mem_cons_self _ _)
    have hdot : ¬c = '.' := fun hd => hc (by rw [hd]; simp [regexSpecials])
    have hcontains : regexSpecials.contains c = false := by
      simp [hc]
    rw [List.mapM_cons]
    simp only [parseTok, if_neg hdot, hcontains, Bool.false_eq_true, if_false,
      ih fun a ha => h a (List.mem_cons_of_mem _ ha)]
    rfl

theorem parseToks_all_lit {s : String}
    (h : ∀ c ∈ s.toList, c ∉ regexSpecials) :
    parseToks s = some (litToks s) :=
  mapM_parseTok_all_lit s.toList h

/-- C8 (amended): an empty (trimmed) genre applies no filter; for a genre
pattern inside the embedded regex fragment, top100 retains exactly the records
whose genre text matches the pattern as a case-insensitive unanchored regex
search (records with missing genre text are excluded) and then always returns
a structured response; and when the genre contains no regex metacharacter,
that matching is exactly case-insensitive substring containment. -/
theorem claim_C8_genre_filter (f : List Row) (g o : String) :
    (g.trim = "" → genreFilter f g.trim = some f ∧
      ∃ resp, top100 f g o = some resp) ∧
    (g.trim ≠ "" → ∀ toks, parseToks g.trim = some toks →
      genreFilter f g.trim = some (f.filter fun r =>
        match r.rcd.genres with
        | none => false
        | some t => tokSearch toks t.toList) ∧
      ∃ resp, top100 f g o = some resp) ∧
    (g.trim ≠ "" → (∀ c ∈ g.trim.toList, c ∉ regexSpecials) →
      genreFilter f g.trim = some (f.filter fun r =>
        match r.rcd.genres with
        | none => false
        | some t => lowSub g.trim.toList t.toList)) := by
  have key : ∀ toks, g.trim ≠ "" → parseToks g.trim = some toks →
      genreFilter f g.trim = some (f.filter fun r =>
        match r.rcd.genres with
        | none => false
        | some t => tokSearch toks t.toList) := by
    intro toks hg htoks
    have hg' : (g.trim == "") = false := beq_eq_false_iff_ne.mpr hg
    simp [genreFilter, hg', htoks]
  refine ⟨?_, ?_, ?_⟩
  · intro hg
    have hg' : (g.trim == "") = true := by rw [hg]; exact beq_self_eq_true _
    have h1 : genreFilter f g.trim = some f := by simp [genreFilter, hg']
    exact ⟨h1, _, by rw [top100, h1, Option.map_some']⟩
  · intro hg toks htoks
    exact ⟨key toks hg htoks, _, by rw [top100, key toks hg htoks, Option.map_some']⟩
  · intro hg hlits
    rw [key (litToks g.trim) hg (parseToks_all_lit hlits)]
    refine congrArg some (List.filter_congr ?_)
    intro r hr
    cases hgen : r.rcd.genres with
    | none => rfl
    | some t => exact tokSearch_litToks _ _

/-! ## Concrete sample data used by witnesses and counterexamples -/

def recA : Record := ⟨"A", none, none, some 8, some 2000, none, some "D", some "Drama"⟩
def recB : Record := ⟨"B", none, none, some 7, some 1990, none, none, none⟩
def rowA : Row := ⟨0, recA, 3⟩
def rowB : Row := ⟨1, recB, 3⟩
def wFrame : List Row := [rowA, rowB]
def itemA : SimilarItem := ⟨"A", YearOut.num 2000, "D", "Drama", some 8⟩
def respA : SimilarResp := ⟨"A", 3, "imdb", [itemA]⟩
def respAyear : SimilarResp := ⟨"A", 3, "year", [itemA]⟩

/-- Witness for C2 at a concrete frame and query. -/
theorem claim_C2_witness :
    (∀ it ∈ respA.similar_movies,
        ∃ r, r ∈ wFrame ∧ renderItem r = it ∧ r.cluster = respA.cluster ∧
          ∃ q, r.rcd.imdb_score = some q ∧ (15 / 2 : ℚ) ≤ q) ∧
    (∀ r, r ∈ wFrame → r.cluster = respA.cluster →
        scoreQualifies r.rcd.imdb_score = true →
        renderItem r ∈ respA.similar_movies) ∧
    (∀ it ∈ respA.similar_movies, ∃ q, it.imdb_score = some q ∧ (15 / 2 : ℚ) ≤ q) ∧
    (∃ rsel, rsel ∈ wFrame ∧ respA.selected_movie = rsel.rcd.movie_title ∧
        respA.cluster = rsel.cluster ∧
        (scoreQualifies rsel.rcd.imdb_score = true →
          renderItem rsel ∈ respA.similar_movies)) :=
  @claim_C2_similar_set wFrame "a" none "imdb" respA (by with_unfolding_all decide)

/-- Witness for C3 at a concrete frame and query with order "year". -/
theorem claim_C3_witness :
    (respAyear.order = "year" →
      respAyear.similar_movies.Pairwise fun a b =>
        yearOutGe a.title_year b.title_year) ∧
    (respAyear.order ≠ "year" →
      respAyear.similar_movies.Pairwise fun a b =>
        optGeP a.imdb_score b.imdb_score) :=
  @claim_C3_similar_order wFrame "a" none "year" respAyear
    (by with_unfolding_all decide)

/-- Witness for C4 at a concrete frame and query. -/
theorem claim_C4_witness :
    ∃ resp, search wFrame " A " none "imdb" = SearchOut.similar resp ∧
      resp.selected_movie = rowA.rcd.movie_title ∧ resp.cluster = rowA.cluster :=
  @claim_C4_exact_match_resolves wFrame " A " "imdb" rowA
    (by with_unfolding_all decide) (by with_unfolding_all decide)

/-- Witness for C5 at a concrete frame and query with no match. -/
theorem claim_C5_witness :
    isErr (search wFrame "zzz" none "imdb") = true :=
  (claim_C5_error_iff wFrame "zzz" none "imdb").1.mpr
    (Or.inr (Or.inr (Or.inr ⟨rfl, by with_unfolding_all decide,
      by with_unfolding_all decide⟩)))

def itemB : SimilarItem := ⟨"B", YearOut.num 1990, "N/D", "N/D", some 7⟩
def respT : Top100Resp := ⟨"year", "", [itemA, itemB]⟩

/-- Witness for C1 at a concrete frame with order "year". -/
theorem claim_C1_witness :
    (∀ it, it ∈ respT.movies ↔ it ∈ (scoreTop wFrame).map renderItem) ∧
    ("year".toLower = "year" →
      respT.movies =
        (sortValuesDesc (fun r => r.rcd.title_year) (scoreTop wFrame)).map
          renderItem) :=
  @claim_C1_top100_two_phase wFrame "" "year" respT wFrame
    (by with_unfolding_all decide) (by with_unfolding_all decide)

/-- Witness for C8 (amended) at a concrete frame and a metacharacter-free
genre. -/
theorem claim_C8_witness :
    genreFilter wFrame "dra".trim = some (wFrame.filter fun r =>
      match r.rcd.genres with
      | none => false
      | some t => lowSub "dra".trim.toList t.toList) :=
  (claim_C8_genre_filter wFrame "dra" "score").2.2
    (by with_unfolding_all decide) (by with_unfolding_all decide)

/-- Counterexample for C8 as frozen: with the genre parameter ".", `top100`
retains a record whose genre text "Drama" does not contain "." as a
case-insensitive substring — `str.contains` treats the genre as a regex, so
the wildcard matches; the filter is not substring containment. -/
theorem claim_C8_counterexample :
    top100 [rowA] "." "score" =
      some { order := "score", genre := ".", movies := [itemA] } ∧
    lowSub ".".toList "Drama".toList = false := by
  with_unfolding_all decide

/-! ## Effects of the startup imputation (line 40) -/

def recMiss : Record := ⟨"M", none, none, none, some 2001, none, none, none⟩
def recNoYear : Record :=
  ⟨"Y", some 100, some 1, some 8, none, some 1, some "D", some "G"⟩
def recFull : Record :=
  ⟨"F", some 100, some 50, some 9, some 2005, some 20, some "D", some "G"⟩

theorem impute_get? {c : List Record} {i : Nat} {r : Record}
    (h : c.get? i = some r) :
    (impute c).get? i = some
      { r with
        duration := fillNa r.duration (colMedian (fun x => x.duration) c)
        budget := fillNa r.budget (colMedian (fun x => x.budget) c)
        imdb_score := fillNa r.imdb_score (colMedian (fun x => x.imdb_score) c)
        title_year := fillNa r.title_year (colMedian (fun x => x.title_year) c)
        gross := fillNa r.gross (colMedian (fun x => x.gross) c) } := by
  unfold impute
  rw [List.get?_map, h]
  rfl

/-- C6 (amended): the line 40 imputation is written back into the catalog: it
leaves identity/text fields and present numeric values unchanged, but replaces
a missing numeric value with its column median, and the startup frame (which
the query routes read) carries these imputed values. -/
theorem claim_C6_imputation {c : List Record} {i : Nat} {r : Record}
    (h : c.get? i = some r) :
    ∃ r', (impute c).get? i = some r' ∧
      r'.movie_title = r.movie_title ∧
      r'.director_name = r.director_name ∧
      r'.genres = r.genres ∧
      (∀ q, r.imdb_score = some q → r'.imdb_score = some q) ∧
      (r.imdb_score = none →
        r'.imdb_score = colMedian (fun x => x.imdb_score) c) ∧
      (∀ q, r.title_year = some q → r'.title_year = some q) ∧
      (r.title_year = none →
        r'.title_year = colMedian (fun x => x.title_year) c) := by
  refine ⟨_, impute_get? h, rfl, rfl, rfl, ?_, ?_, ?_, ?_⟩
  · intro q hq
    simp [fillNa, hq]
  · intro hq
    simp [fillNa, hq]
  · intro q hq
    simp [fillNa, hq]
  · intro hq
    simp [fillNa, hq]

/-- Counterexample for C6 as frozen: on a catalog whose first record has a
missing imdb_score, the imputation changes the stored score column, and the
similarity threshold of line 145 then evaluates to true on the imputed value —
queries do not read the original, un-imputed values. -/
theorem claim_C6_counterexample :
    ((impute [recMiss, recA]).map fun r => r.imdb_score) ≠
      ([recMiss, recA].map fun r => r.imdb_score) ∧
    ((startupFrame [recMiss, recA] [0, 0]).map fun row =>
      scoreQualifies row.rcd.imdb_score) = [true, true] := by
  with_unfolding_all decide

theorem medianQ_isSome {xs : List ℚ} (h : xs ≠ []) : (medianQ xs).isSome := by
  have hn : (sortAscBy id xs).length ≠ 0 := by
    rw [(sortAscBy_perm id xs).length_eq]
    simpa using h
  have h2 : ∀ k, k < (sortAscBy id xs).length →
      ∃ a, (sortAscBy id xs).get? k = some a := by
    intro k hk
    cases hg : (sortAscBy id xs).get? k with
    | none => rw [List.get?_eq_none] at hg; omega
    | some a => exact ⟨a, rfl⟩
  simp only [medianQ]
  rw [if_neg hn]
  by_cases hodd : (sortAscBy id xs).length % 2 = 1
  · rw [if_pos hodd]
    obtain ⟨a, ha⟩ := h2 ((sortAscBy id xs).length / 2) (by omega)
    rw [ha]
    rfl
  · rw [if_neg hodd]
    obtain ⟨a, ha⟩ := h2 ((sortAscBy id xs).length / 2 - 1) (by omega)
    obtain ⟨b, hb⟩ := h2 ((sortAscBy id xs).length / 2) (by omega)
    rw [ha, hb]
    rfl

theorem colMedian_isSome {get : Record → Option ℚ} {c : List Record}
    (h : ∃ r ∈ c, (get r).isSome) : (colMedian get c).isSome := by
  obtain ⟨r, hr, hg⟩ := h
  obtain ⟨q, hq⟩ := Option.isSome_iff_exists.mp hg
  refine medianQ_isSome fun hnil => ?_
  have hmem : q ∈ c.filterMap get := List.mem_filterMap.mpr ⟨r, hr, hq⟩
  rw [hnil] at hmem
  exact List.not_mem_nil q hmem

theorem fillNa_isSome {v m : Option ℚ} (hm : m.isSome) : (fillNa v m).isSome := by
  cases v <;> simp [fillNa, hm]

/-- C10 (amended): provided each of the five numeric columns has at least one
present value in the input, after the median imputation no record has a
missing value in any of the five numeric fields; the "N/D" fallback branches
for title_year (candidate list, similar-movies renderer, top100 renderer) are
unreachable on the startup frame; and a record whose imdb_score was missing in
the input carries the catalog median and meets the 7.5 threshold exactly when
that median does. -/
theorem claim_C10_imputed_complete {c : List Record}
    (hdur : ∃ r ∈ c, r.duration.isSome)
    (hbud : ∃ r ∈ c, r.budget.isSome)
    (hsc : ∃ r ∈ c, r.imdb_score.isSome)
    (hyr : ∃ r ∈ c, r.title_year.isSome)
    (hgr : ∃ r ∈ c, r.gross.isSome) :
    (∀ r' ∈ impute c, r'.duration.isSome ∧ r'.budget.isSome ∧
      r'.imdb_score.isSome ∧ r'.title_year.isSome ∧ r'.gross.isSome) ∧
    (∀ labels : List Nat, ∀ row ∈ startupFrame c labels,
      (∃ n, renderYearInt row.rcd.title_year = YearOut.num n) ∧
      (∃ q, renderYearRaw row.rcd.title_year = YearRaw.num q)) ∧
    (∀ i r, c.get? i = some r → r.imdb_score = none →
      ∃ mq, colMedian (fun x => x.imdb_score) c = some mq ∧
        ∃ r', (impute c).get? i = some r' ∧ r'.imdb_score = some mq ∧
          (scoreQualifies r'.imdb_score = true ↔ (15 / 2 : ℚ) ≤ mq)) := by
  have hall : ∀ r' ∈ impute c, r'.duration.isSome ∧ r'.budget.isSome ∧
      r'.imdb_score.isSome ∧ r'.title_year.isSome ∧ r'.gross.isSome := by
    intro r' hr'
    obtain ⟨r, hr, hrr⟩ := List.mem_map.mp hr'
    subst hrr
    exact ⟨fillNa_isSome (colMedian_isSome hdur),
      fillNa_isSome (colMedian_isSome hbud),
      fillNa_isSome (colMedian_isSome hsc),
      fillNa_isSome (colMedian_isSome hyr),
      fillNa_isSome (colMedian_isSome hgr)⟩
  refine ⟨hall, ?_, ?_⟩
  · intro labels row hrow
    obtain ⟨p, hp, hprow⟩ := List.mem_map.mp hrow
    have hpz := List.of_mem_zip hp
    have hrecmem : p.1.2 ∈ impute c := by
      have := List.mem_enum_iff_get?.mp hpz.1
      exact List.get?_mem this
    have hys := (hall p.1.2 hrecmem).2.2.2.1
    have hyrcd : row.rcd = p.1.2 := by rw [← hprow]
    obtain ⟨q, hq⟩ := Option.isSome_iff_exists.mp hys
    rw [hyrcd, hq]
    exact ⟨⟨ratTrunc q, rfl⟩, ⟨q, rfl⟩⟩
  · intro i r hget hnone
    obtain ⟨mq, hmq⟩ :=
      Option.isSome_iff_exists.mp
        (@colMedian_isSome (fun x => x.imdb_score) c hsc)
    refine ⟨mq, hmq, _, impute_get? hget, ?_, ?_⟩
    · simp [fillNa, hnone, hmq]
    · simp [fillNa, hnone, hmq, scoreQualifies]

/-- Counterexample for C10 as frozen: a catalog whose only record misses
title_year keeps the missing value (the all-NaN column has NaN median, and
`fillna` leaves it), and both year renderers reach their "N/D" branch. -/
theorem claim_C10_counterexample :
    ((impute [recNoYear]).map fun r => r.title_year) = [none] ∧
    ((startupFrame [recNoYear] [0]).map fun row =>
      renderYearInt row.rcd.title_year) = [YearOut.nd] ∧
    ((startupFrame [recNoYear] [0]).map fun row =>
      renderYearRaw row.rcd.title_year) = [YearRaw.nd] := by
  with_unfolding_all decide

/-- Witness for C6 (amended) at a concrete catalog. -/
theorem claim_C6_witness :
    ∃ r', (impute [recMiss, recA]).get? 0 = some r' ∧
      r'.movie_title = recMiss.movie_title ∧
      r'.director_name = recMiss.director_name ∧
      r'.genres = recMiss.genres ∧
      (∀ q, recMiss.imdb_score = some q → r'.imdb_score = some q) ∧
      (recMiss.imdb_score = none →
        r'.imdb_score = colMedian (fun x => x.imdb_score) [recMiss, recA]) ∧
      (∀ q, recMiss.title_year = some q → r'.title_year = some q) ∧
      (recMiss.title_year = none →
        r'.title_year = colMedian (fun x => x.title_year) [recMiss, recA]) :=
  @claim_C6_imputation [recMiss, recA] 0 recMiss rfl

/-- Witness for C10 (amended) at a concrete catalog. -/
theorem claim_C10_witness :
    (∀ r' ∈ impute [recFull], r'.duration.isSome ∧ r'.budget.isSome ∧
      r'.imdb_score.isSome ∧ r'.title_year.isSome ∧ r'.gross.isSome) ∧
    (∀ labels : List Nat, ∀ row ∈ startupFrame [recFull] labels,
      (∃ n, renderYearInt row.rcd.title_year = YearOut.num n) ∧
      (∃ q, renderYearRaw row.rcd.title_year = YearRaw.num q)) ∧
    (∀ i r, ([recFull] : List Record).get? i = some r → r.imdb_score = none →
      ∃ mq, colMedian (fun x => x.imdb_score) [recFull] = some mq ∧
        ∃ r', (impute [recFull]).get? i = some r' ∧ r'.imdb_score = some mq ∧
          (scoreQualifies r'.imdb_score = true ↔ (15 / 2 : ℚ) ≤ mq)) :=
  claim_C10_imputed_complete (by with_unfolding_all decide)
    (by with_unfolding_all decide) (by with_unfolding_all decide)
    (by with_unfolding_all decide) (by with_unfolding_all decide)

/-! ## The Cluster Assigner (spec section 4.2)

`src/main.py` lines 47-48 delegate clustering to `sklearn.cluster.KMeans
(n_clusters=10, random_state=42).fit_predict`, library code that is not part
of this repository. The assigner is therefore modelled from the spec. -/

/-- Squared Euclidean distance between two feature vectors. -/
def sqDist (a b : List ℚ) : ℚ :=
  (List.zipWith (fun x y => (x - y) * (x - y)) a b).foldr (· + ·) 0

def nearestAux (p : List ℚ) : List (List ℚ) → Nat → Nat × ℚ → Nat × ℚ
  | [], _, best => best
  | c :: cs, i, best =>
    if sqDist p c < best.2 then nearestAux p cs (i + 1) (i, sqDist p c)
    else nearestAux p cs (i + 1) best

/-- Index of the nearest centroid (lowest index on ties). -/
def nearestIdx (cents : List (List ℚ)) (p : List ℚ) : Nat :=
  match cents with
  | [] => 0
  | c :: cs => (nearestAux p cs 1 (0, sqDist p c)).1

/-- Each record joins the nearest centroid. -/
def assignStep (cents : List (List ℚ)) (pts : List (List ℚ)) : List Nat :=
  pts.map (nearestIdx cents)

def vAdd (a b : List ℚ) : List ℚ :=
  List.zipWith (· + ·) a b

/-- A centroid relocates to the mean of its members; an empty cluster keeps
its previous centroid. -/
def centroidOf (old : List ℚ) (members : List (List ℚ)) : List ℚ :=
  match members with
  | [] => old
  | m :: ms => (ms.foldl vAdd m).map fun x => x / ((ms.length + 1 : Nat) : ℚ)

def updateStep (cents : List (List ℚ)) (pts : List (List ℚ))
    (labels : List Nat) : List (List ℚ) :=
  cents.enum.map fun ic =>
    centroidOf ic.2
      (((pts.zip labels).filter fun pl => pl.2 == ic.1).map fun pl => pl.1)

/-- Iterate assignment and centroid relocation until the assignment is stable
or the iteration cap runs out. -/
def lloydLoop : Nat → List (List ℚ) → List (List ℚ) → List Nat
  | 0, cents, pts => assignStep cents pts
  | fuel + 1, cents, pts =>
    let ls := assignStep cents pts
    let cents2 := updateStep cents pts ls
    let ls2 := assignStep cents2 pts
    if ls2 == ls then ls else lloydLoop fuel cents2 pts

/-- Modelled from the spec: `assign(featureVectors, k=10, seed=fixed)` of
section 4.2 — the Cluster Assigner the code realizes through
`sklearn.cluster.KMeans(n_clusters=10, random_state=42)`, whose implementation
is missing from src/. Following the spec: iterative centroid relocation from a
seed-determined initial placement (the seed deterministically picks `k` data
points as initial centroids), each record joining the nearest centroid by
Euclidean distance, centroids recomputed as member means, repeated until
assignment stability or a bounded iteration cap (300, sklearn's default); a
configuration with more clusters than records is rejected, per section 4.2 and
section 7. The model is a pure function of (points, k, seed), so re-running
startup on the same input with the same seed definitionally reproduces the
labels. -/
def assign (pts : List (List ℚ)) (k : Nat) (seed : Nat) : Option (List Nat) :=
  if k = 0 ∨ pts.length < k then none
  else
    let init := (List.range k).map fun i =>
      (pts.get? ((seed + i) % pts.length)).getD []
    some (lloydLoop 300 init pts)

theorem nearestAux_lt (p : List ℚ) :
    ∀ (cs : List (List ℚ)) (i : Nat) (best : Nat × ℚ), best.1 < i →
      (nearestAux p cs i best).1 < i + cs.length := by
  intro cs
  induction cs with
  | nil =>
    intro i best hb
    simpa [nearestAux] using hb
  | cons c cs ih =>
    intro i best hb
    rw [nearestAux]
    split
    · have := ih (i + 1) (i, sqDist p c) (Nat.lt_succ_self i)
      simpa [Nat.add_assoc, Nat.add_comm 1 cs.length] using this
    · have := ih (i + 1) best (Nat.lt_succ_of_lt hb)
      simpa [Nat.add_assoc, Nat.add_comm 1 cs.length] using this

theorem nearestIdx_lt {cents : List (List ℚ)} (h : cents ≠ []) (p : List ℚ) :
    nearestIdx cents p < cents.length := by
  cases cents with
  | nil => exact absurd rfl h
  | cons c cs =>
    have := nearestAux_lt p cs 1 (0, sqDist p c) Nat.one_pos
    simpa [nearestIdx, Nat.add_comm 1 cs.length] using this

theorem updateStep_length (cents pts : List (List ℚ)) (labels : List Nat) :
    (updateStep cents pts labels).length = cents.length := by
  simp [updateStep]

theorem lloydLoop_labels :
    ∀ (fuel : Nat) (cents pts : List (List ℚ)), cents ≠ [] →
      (∀ l ∈ lloydLoop fuel cents pts, l < cents.length) ∧
      (lloydLoop fuel cents pts).length = pts.length := by
  intro fuel
  induction fuel with
  | zero =>
    intro cents pts hc
    constructor
    · intro l hl
      obtain ⟨p, _, hpl⟩ := List.mem_map.mp hl
      exact hpl ▸ nearestIdx_lt hc p
    · simp [lloydLoop, assignStep]
  | succ fuel ih =>
    intro cents pts hc
    rw [lloydLoop]
    split
    · constructor
      · intro l hl
        obtain ⟨p, _, hpl⟩ := List.mem_map.mp hl
        exact hpl ▸ nearestIdx_lt hc p
      · simp [assignStep]
    · have hlen : (updateStep cents pts (assignStep cents pts)).length =
          cents.length := updateStep_length _ _ _
      have hne : updateStep cents pts (assignStep cents pts) ≠ [] := by
        intro hnil
        rw [hnil] at hlen
        exact hc (List.length_eq_zero.mp hlen.symm)
      have := ih (updateStep cents pts (assignStep cents pts)) pts hne
      rw [hlen] at this
      exact this

/-- C9: whenever startup's clustering accepts the configuration, every
record receives a label in [0, 10), one label per record, and a second run of
the assigner over the same input with the same seed produces the identical
labels (determinism is definitional: the model is a pure function). -/
theorem claim_C9_labels {pts : List (List ℚ)} {ls : List Nat}
    (h : assign pts 10 42 = some ls) :
    (∀ l ∈ ls, l < 10) ∧ ls.length = pts.length ∧
      assign pts 10 42 = assign pts 10 42 := by
  rw [assign] at h
  split at h
  · exact absurd h (by simp)
  · injection h with h
    subst h
    have hinit : ((List.range 10).map fun i =>
        (pts.get? ((42 + i) % pts.length)).getD []).length = 10 := by
      simp
    have hne : ((List.range 10).map fun i =>
        (pts.get? ((42 + i) % pts.length)).getD []) ≠ [] := by
      intro hnil
      rw [hnil] at hinit
      cases hinit
    have := lloydLoop_labels 300 _ pts hne
    rw [hinit] at this
    exact ⟨this.1, this.2, rfl⟩

def pts10 : List (List ℚ) :=
  [[0], [1], [2], [3], [4], [5], [6], [7], [8], [9]]

/-- Witness for C9 at ten concrete one-dimensional points. -/
theorem claim_C9_witness :
    (∀ l ∈ ([8, 9, 0, 1, 2, 3, 4, 5, 6, 7] : List Nat), l < 10) ∧
    ([8, 9, 0, 1, 2, 3, 4, 5, 6, 7] : List Nat).length = pts10.length ∧
      assign pts10 10 42 = assign pts10 10 42 :=
  @claim_C9_labels pts10 [8, 9, 0, 1, 2, 3, 4, 5, 6, 7]
    (by with_unfolding_all decide)

end Movies
